import Mathlib

set_option autoImplicit false

/-!
Shallow embedding of the WeChatMsg export pipeline, translated from
`simple_export.py` and `app/export/export_chat_records.py`.

External library behaviour (sqlite, `datetime`, `json`, the file system) is
modelled explicitly: the database file content stands in for the sqlite file,
`datetime.strptime` and the `strftime` formatters are oracles in an `Env`
record, and the observable I/O of one export call is returned as an
`ExportEffects` record.
-/

/-- Value stored in an sqlite column as surfaced to Python by `sqlite3`.
The storage classes used here are NULL, INTEGER, TEXT and BLOB; REAL columns
are not modelled (no floating point in this embedding). -/
inductive DBValue where
  | null
  | int (n : Int)
  | text (s : String)
  | blob (bytes : List Nat)
deriving DecidableEq

/-- Python truthiness of a database value, as in `if message[10]:`. -/
def DBValue.isTruthy : DBValue → Bool
  | .null => false
  | .int n => decide (n ≠ 0)
  | .text s => decide (s ≠ "")
  | .blob bs => decide (bs ≠ [])

/-- Lowercase hexadecimal character of a value below 16, as produced by
`bytes.hex()` (codepoint 48 is the digit zero, 97 the letter a). -/
def hexDigitChar (n : Nat) : Char :=
  if n < 10 then Char.ofNat (48 + n) else Char.ofNat (87 + n)

/-- Rendering of one byte as two lowercase hexadecimal characters. -/
def byteHex (b : Nat) : List Char := [hexDigitChar (b / 16), hexDigitChar (b % 16)]

/-- Rendering of a byte string by `bytes.hex()`: lowercase hexadecimal. -/
def bytesHex (bs : List Nat) : String := String.mk (bs.flatMap byteHex)

/-- Value of one hexadecimal character, used to read a hex string back. -/
def hexDigitVal (c : Char) : Option Nat :=
  if 48 ≤ c.toNat ∧ c.toNat ≤ 57 then some (c.toNat - 48)
  else if 97 ≤ c.toNat ∧ c.toNat ≤ 102 then some (c.toNat - 87)
  else none

/-- Decoding of a list of hexadecimal characters back into bytes
(`bytes.fromhex`): consumes two characters per byte. -/
def hexCharsToBytes : List Char → Option (List Nat)
  | [] => some []
  | c1 :: c2 :: rest =>
    match hexDigitVal c1, hexDigitVal c2, hexCharsToBytes rest with
    | some hi, some lo, some bs => some ((16 * hi + lo) :: bs)
    | _, _, _ => none
  | [_] => none

/-- Decoding of a hexadecimal string back into bytes. -/
def hexToBytes (s : String) : Option (List Nat) := hexCharsToBytes s.toList

/-- The pattern `x = None; if v: try: x = v.hex() except: x = None` from the
message formatters: a truthy `bytes` value renders as lowercase hex, a falsy
value is skipped, and a truthy value of another storage class has no `hex`
attribute, so the `AttributeError` is caught and mapped back to `None`. -/
def pyHexOrNone (v : DBValue) : Option String :=
  if v.isTruthy then
    match v with
    | .blob bs => some (bytesHex bs)
    | _ => none
  else none

/-- One row returned by the `MSG` query in `get_all_messages` (14 selected
columns, in order). `msgType` stands for the `Type` column (a Lean keyword).
`compressContent` is optional: `none` models a row without the trailing
`CompressContent` column, the case guarded by `len(message) > 13` in the
formatter. -/
structure MsgRow where
  localId : Int
  talkerId : Int
  msgType : Int
  subType : Int
  isSender : Int
  createTime : Int
  status : Int
  strContent : String
  strTime : String
  msgSvrId : Int
  bytesExtra : DBValue
  strTalker : String
  reserved1 : Int
  compressContent : Option DBValue
deriving DecidableEq

/-- One side of a Python `time_range` value: an `int` epoch stamp, a date
string, or a `datetime`-like object whose `.timestamp()` value is known. -/
inductive PyTime where
  | int (n : Int)
  | str (s : String)
  | dt (epoch : Int)
deriving DecidableEq

/-- One side of `convert_to_timestamp` from `simple_export.py`: a string is
parsed with `datetime.strptime` (the external `parse` oracle, covering both
accepted formats on strings that parse), then any value with a `.timestamp()`
attribute is replaced by `int(value.timestamp())`; a plain integer matches
neither branch and passes through unchanged. -/
def convertSide (parse : String → Int) (v : PyTime) : PyTime :=
  let v1 := match v with
    | .str s => PyTime.dt (parse s)
    | other => other
  match v1 with
  | .dt epoch => PyTime.int epoch
  | other => other

/-- The function `convert_to_timestamp` from `simple_export.py`, applied to
both sides of the range. -/
def convert_to_timestamp (parse : String → Int) (tr : PyTime × PyTime) :
    PyTime × PyTime :=
  (convertSide parse tr.1, convertSide parse tr.2)

/-- Integer carried by a normalized time value (after `convert_to_timestamp`
every value is a `PyTime.int`). -/
def PyTime.toEpoch : PyTime → Int
  | .int n => n
  | .str _ => 0
  | .dt n => n

/-- Comparator of the `order by CreateTime` clause. -/
def byCreateTime (a b : MsgRow) : Prop := a.createTime ≤ b.createTime

instance : DecidableRel byCreateTime :=
  fun a b => inferInstanceAs (Decidable (a.createTime ≤ b.createTime))

instance : IsTotal MsgRow byCreateTime :=
  ⟨fun a b => Int.le_total a.createTime b.createTime⟩

instance : IsTrans MsgRow byCreateTime :=
  ⟨fun _ _ _ h1 h2 => le_trans h1 h2⟩

/-- The function `get_all_messages` from `simple_export.py`: it returns `[]`
when the database file does not exist (`os.path.exists`), otherwise the `MSG`
table filtered by `CreateTime > start AND CreateTime < end` when a range was
given, ordered by `CreateTime`. `table` stands for the content of the sqlite
file and `dbExists` for the existence check; sqlite leaves the order of equal
keys unspecified, modelled here by one admissible sort. -/
def get_all_messages (parse : String → Int) (dbExists : Bool)
    (table : List MsgRow) (time_range : Option (PyTime × PyTime)) :
    List MsgRow :=
  if dbExists then
    let rows :=
      match time_range with
      | some tr =>
        let c := convert_to_timestamp parse tr
        table.filter fun (m : MsgRow) =>
          decide (c.1.toEpoch < m.createTime ∧ m.createTime < c.2.toEpoch)
      | none => table
    rows.insertionSort byCreateTime
  else []

/-- One step of the grouping loop of `export_chat_records` and
`get_all_chat_records_by_time`: `if talker not in grouped:
grouped[talker] = []` followed by `grouped[talker].append(message)`.
The insertion-ordered Python dict is modelled as an association list. -/
def addMsg (acc : List (String × List MsgRow)) (m : MsgRow) :
    List (String × List MsgRow) :=
  if acc.any (fun p => p.1 == m.strTalker) then
    acc.map fun p => if p.1 = m.strTalker then (p.1, p.2 ++ [m]) else p
  else acc ++ [(m.strTalker, [m])]

/-- The grouping loop over the full query result. -/
def group_messages (msgs : List MsgRow) : List (String × List MsgRow) :=
  msgs.foldl addMsg []

/-- Group of a given talker in a grouping, i.e. `grouped[talker]` with `[]`
for a missing key. -/
def lookupGroup (g : List (String × List MsgRow)) (t : String) : List MsgRow :=
  match g.find? (fun p => p.1 == t) with
  | some p => p.2
  | none => []

/-- One row of the `Contact` join in `get_contact_info` (11 selected columns;
downstream code uses the first five). `ctype` stands for the `Type` column. -/
structure ContactRow where
  username : String
  aliasName : String
  ctype : Int
  remark : String
  nickname : String
  pyInitial : String
  remarkPYInitial : String
  smallHeadImgUrl : String
  bigHeadImgUrl : String
  extraBuf : DBValue
  labelName : String
deriving DecidableEq

/-- The function `get_contact_info` from `simple_export.py`: `None` when the
contact database file is missing, otherwise `fetchone` over the rows whose
`UserName` matches. When the `ContactLabel` table is absent (older schema) the
fallback query reports the literal label `"None"` instead of the joined label;
`contacts` stands for the joined `Contact` and `ContactHeadImgUrl` rows. -/
def get_contact_info (cdbExists : Bool) (hasLabelTable : Bool)
    (contacts : List ContactRow) (username : String) : Option ContactRow :=
  if cdbExists then
    match contacts.find? (fun r => r.username == username) with
    | some r => some (if hasLabelTable then r else { r with labelName := "None" })
    | none => none
  else none

/-- Occurrence of `needle` as a contiguous subsequence of `hay`. -/
def containsSeq (needle : List Char) : List Char → Bool
  | [] => needle.isEmpty
  | c :: rest => needle.isPrefixOf (c :: rest) || containsSeq needle rest

/-- Python substring test `needle in hay`, used as `"@chatroom" in talker`. -/
def strContains (hay needle : String) : Bool :=
  containsSeq needle.toList hay.toList

/-- One entry of the `contacts_info` dictionary. `ctype` renders the `type`
key of the JSON object. -/
structure ContactSummary where
  username : String
  aliasName : String
  ctype : Int
  remark : String
  nickname : String
  is_chatroom : Bool
deriving DecidableEq

/-- The per-talker contact entry built in `export_chat_records`: copy the five
descriptive fields when the lookup resolved, otherwise synthesize the fallback
summary from the identifier itself. -/
def contact_summary (info : Option ContactRow) (talker : String) :
    ContactSummary :=
  match info with
  | some ci =>
    { username := ci.username, aliasName := ci.aliasName, ctype := ci.ctype,
      remark := ci.remark, nickname := ci.nickname,
      is_chatroom := strContains ci.username "@chatroom" }
  | none =>
    { username := talker, aliasName := "", ctype := -1, remark := "",
      nickname := talker, is_chatroom := strContains talker "@chatroom" }

/-- One formatted message object as emitted by `format_message_for_json`.
`msg_type` renders the `type` key of the JSON object. -/
structure FormattedMsg where
  message_id : Int
  talker_id : Int
  msg_type : Int
  sub_type : Int
  is_sender : Bool
  timestamp : Int
  formatted_time : String
  content : String
  msg_svr_id : Int
  bytes_extra : Option String
  talker : String
  reserved1 : Int
  compress_content : Option String
deriving DecidableEq

/-- The function `format_message_for_json` (identical in both source files):
field-by-field copy with `bool()` on the sender flag and the hex-or-`None`
policy on the two binary columns. -/
def format_message_for_json (m : MsgRow) : FormattedMsg :=
  { message_id := m.localId
    talker_id := m.talkerId
    msg_type := m.msgType
    sub_type := m.subType
    is_sender := decide (m.isSender ≠ 0)
    timestamp := m.createTime
    formatted_time := m.strTime
    content := m.strContent
    msg_svr_id := m.msgSvrId
    bytes_extra := pyHexOrNone m.bytesExtra
    talker := m.strTalker
    reserved1 := m.reserved1
    compress_content :=
      match m.compressContent with
      | some v => pyHexOrNone v
      | none => none }

/-- The `formatted_data` document assembled in `export_chat_records`, with its
top-level keys as fields and the two insertion-ordered dicts as association
lists. -/
structure ExportDoc where
  export_time : String
  time_range_start : String
  time_range_end : String
  contacts : List (String × ContactSummary)
  messages : List (String × List FormattedMsg)
deriving DecidableEq

/-- Result of the `open` and `json.dump` call pair: success, an exception
raised after `n` characters were flushed (the prefix stays on disk because the
`with` block closes the file and nothing deletes it), or `open` itself raising
so that no file is created. -/
inductive WriteOutcome where
  | ok
  | failAfter (n : Nat)
  | openFail
deriving DecidableEq

/-- External environment of one `export_chat_records` call: the `datetime`
formatters, `datetime.strptime` as `parse`, the working directory, whether the
default output directory already exists, the `json.dump` rendering, and the
I/O behaviour of the write. -/
structure Env where
  parse : String → Int
  now : String
  fmtDateTime : Int → String
  fmtYMD : Int → String
  cwd : String
  exportsDirExists : Bool
  serialize : ExportDoc → String
  writeOutcome : WriteOutcome

/-- Observable effects of one `export_chat_records` call: the file left on
disk (path and content), the returned path (or the empty sentinel), how many
times the no-records and write-failure diagnostics were emitted, how many
write attempts were made, and whether the default output directory was
created. -/
structure ExportEffects where
  written : Option (String × String)
  returned : String
  noRecordsMsgs : Nat
  writeErrorMsgs : Nat
  writeAttempts : Nat
  madeExportsDir : Bool
deriving DecidableEq

/-- The `formatted_data` dictionary built in `export_chat_records`, from the
grouped messages and the contact lookup. The `time_range` entries re-run
`convert_to_timestamp` and format each bound, or hold the literal `"all"` when
no range was supplied. -/
def build_export_doc (env : Env) (lookup : String → Option ContactRow)
    (grouped : List (String × List MsgRow))
    (time_range : Option (PyTime × PyTime)) : ExportDoc :=
  { export_time := env.now
    time_range_start :=
      match time_range with
      | some tr => env.fmtDateTime (convert_to_timestamp env.parse tr).1.toEpoch
      | none => "all"
    time_range_end :=
      match time_range with
      | some tr => env.fmtDateTime (convert_to_timestamp env.parse tr).2.toEpoch
      | none => "all"
    contacts := grouped.map fun p => (p.1, contact_summary (lookup p.1) p.1)
    messages := grouped.map fun p => (p.1, p.2.map format_message_for_json) }

/-- The default output path derived in `export_chat_records`:
`os.path.join(os.getcwd(), "exports", f"wechat_records_X_to_Y.json")` where
each bound is `strftime("%Y%m%d")` of the converted range, or the literal
`all` when no range was supplied. -/
def default_output_path (env : Env) (time_range : Option (PyTime × PyTime)) :
    String :=
  let se : String × String :=
    match time_range with
    | some tr =>
      let c := convert_to_timestamp env.parse tr
      (env.fmtYMD c.1.toEpoch, env.fmtYMD c.2.toEpoch)
    | none => ("all", "all")
  env.cwd ++ "/exports/wechat_records_" ++ se.1 ++ "_to_" ++ se.2 ++ ".json"

/-- The function `export_chat_records` from `simple_export.py`, with its I/O
surfaced as `ExportEffects`. An `output_path` of `none`, or of `some ""`
(both falsy in Python), triggers default-path derivation; the default
`exports` directory is created only on that branch and only when missing. On
a write failure the error is logged once and the empty sentinel returned; the
code neither retries nor deletes whatever prefix was flushed. -/
def export_chat_records (env : Env)
    (msgDbExists : Bool) (msgTable : List MsgRow)
    (cdbExists : Bool) (hasLabelTable : Bool) (contactTable : List ContactRow)
    (time_range : Option (PyTime × PyTime)) (output_path : Option String) :
    ExportEffects :=
  let all_messages := get_all_messages env.parse msgDbExists msgTable time_range
  if all_messages.isEmpty then
    { written := none, returned := "", noRecordsMsgs := 1, writeErrorMsgs := 0,
      writeAttempts := 0, madeExportsDir := false }
  else
    let grouped := group_messages all_messages
    let lookup := get_contact_info cdbExists hasLabelTable contactTable
    let doc := build_export_doc env lookup grouped time_range
    let pathGiven : Bool :=
      match output_path with
      | some p => decide (p ≠ "")
      | none => false
    let path :=
      match output_path with
      | some p => if p = "" then default_output_path env time_range else p
      | none => default_output_path env time_range
    let madeDir := !pathGiven && !env.exportsDirExists
    match env.writeOutcome with
    | .ok =>
      { written := some (path, env.serialize doc), returned := path,
        noRecordsMsgs := 0, writeErrorMsgs := 0, writeAttempts := 1,
        madeExportsDir := madeDir }
    | .failAfter n =>
      { written := some (path, (env.serialize doc).take n), returned := "",
        noRecordsMsgs := 0, writeErrorMsgs := 1, writeAttempts := 1,
        madeExportsDir := madeDir }
    | .openFail =>
      { written := none, returned := "",
        noRecordsMsgs := 0, writeErrorMsgs := 1, writeAttempts := 1,
        madeExportsDir := madeDir }

/-- Concrete message row used by the concrete instantiations below. -/
def mkRow (ct : Int) (talker : String) : MsgRow :=
  { localId := 1, talkerId := 2, msgType := 1, subType := 0, isSender := 1,
    createTime := ct, status := 2, strContent := "hi", strTime := "t",
    msgSvrId := 7, bytesExtra := .null, strTalker := talker, reserved1 := 0,
    compressContent := none }

/-- Concrete environment used by the concrete instantiations below. -/
def demoEnv : Env :=
  { parse := fun _ => 0, now := "2026-01-01 00:00:00",
    fmtDateTime := fun _ => "2023-01-01 00:00:00",
    fmtYMD := fun _ => "20230101",
    cwd := "/home/u", exportsDirExists := false,
    serialize := fun _ => "0123456789", writeOutcome := .ok }

/-- Reading back one lowercase hex digit returns the encoded value. -/
theorem hexDigitVal_hexDigitChar (n : Nat) (h : n < 16) :
    hexDigitVal (hexDigitChar n) = some n := by
  interval_cases n <;> decide

/-- Decoding inverts the bytewise hex encoding. -/
theorem hexCharsToBytes_flatMap (bs : List Nat) (h : ∀ b ∈ bs, b < 256) :
    hexCharsToBytes (bs.flatMap byteHex) = some bs := by
  induction bs with
  | nil => rfl
  | cons b bs ih =>
    have hb : b < 256 := h b (List.mem_cons_self b bs)
    have h1 : b / 16 < 16 := (Nat.div_lt_iff_lt_mul (by norm_num)).mpr (by omega)
    have h2 : b % 16 < 16 := Nat.mod_lt b (by norm_num)
    have hrest : hexCharsToBytes (bs.flatMap byteHex) = some bs :=
      ih fun b hb => h b (List.mem_cons_of_mem _ hb)
    have hflat : (b :: bs).flatMap byteHex =
        hexDigitChar (b / 16) :: hexDigitChar (b % 16) :: bs.flatMap byteHex := rfl
    rw [hflat]
    simp only [hexCharsToBytes, hexDigitVal_hexDigitChar _ h1,
      hexDigitVal_hexDigitChar _ h2, hrest]
    have : 16 * (b / 16) + b % 16 = b := Nat.div_add_mod b 16
    rw [this]

/-- Decoding the hex string produced by `bytes.hex()` returns the original
bytes. -/
theorem hexToBytes_bytesHex (bs : List Nat) (h : ∀ b ∈ bs, b < 256) :
    hexToBytes (bytesHex bs) = some bs := by
  have hl : (bytesHex bs).toList = bs.flatMap byteHex := rfl
  rw [hexToBytes, hl]
  exact hexCharsToBytes_flatMap bs h

/-- C10: `convert_to_timestamp` returns a pair of plain integers unchanged.
An `int` is not a string, so neither `strptime` branch fires, and it has no
`timestamp` attribute, so the conversion branch is skipped as well: pairs of
epoch integers are fixed points of the normalizer. -/
theorem convert_to_timestamp_int_fixed (parse : String → Int) (s e : Int) :
    convert_to_timestamp parse (PyTime.int s, PyTime.int e) =
      (PyTime.int s, PyTime.int e) := rfl

/-- C1: for a normalized range with `s < e`, every message returned by the
time-filtered query satisfies `s < CreateTime < e` (both bounds strictly
excluded, matching the SQL `CreateTime>s AND CreateTime<e`), and the result
is ordered by `CreateTime` ascending. -/
theorem get_all_messages_filter_sorted (parse : String → Int)
    (table : List MsgRow) (s e : Int) (_hse : s < e) :
    (∀ m ∈ get_all_messages parse true table (some (PyTime.int s, PyTime.int e)),
        s < m.createTime ∧ m.createTime < e)
    ∧ List.Sorted byCreateTime
        (get_all_messages parse true table (some (PyTime.int s, PyTime.int e))) := by
  have hunf : get_all_messages parse true table (some (PyTime.int s, PyTime.int e)) =
      List.insertionSort byCreateTime
        (table.filter fun (m : MsgRow) =>
          decide (s < m.createTime ∧ m.createTime < e)) := rfl
  rw [hunf]
  constructor
  · intro m hm
    have hmem : m ∈ table.filter fun (m : MsgRow) =>
        decide (s < m.createTime ∧ m.createTime < e) :=
      (List.perm_insertionSort byCreateTime _).mem_iff.mp hm
    simpa using (List.mem_filter.mp hmem).2
  · exact List.sorted_insertionSort byCreateTime _

/-- Concrete instantiation of the C1 theorem. -/
theorem get_all_messages_filter_sorted_witness :
    ((0 : Int) < 10)
    ∧ ((∀ m ∈ get_all_messages (fun _ => 0) true [mkRow 5 "alice"]
          (some (PyTime.int 0, PyTime.int 10)),
        (0 : Int) < m.createTime ∧ m.createTime < 10)
      ∧ List.Sorted byCreateTime
          (get_all_messages (fun _ => 0) true [mkRow 5 "alice"]
            (some (PyTime.int 0, PyTime.int 10)))) :=
  ⟨by decide,
    get_all_messages_filter_sorted (fun _ => 0) [mkRow 5 "alice"] 0 10 (by decide)⟩

/-- C4: when the contact lookup returns absence, the synthesized summary is
exactly the fallback record: type -1, empty alias and remark, the identifier
itself as username and nickname, and the chatroom flag computed from the
identifier alone, so it does not depend on the lookup at all. -/
theorem contact_fallback (lookup : String → Option ContactRow) (talker : String)
    (h : lookup talker = none) :
    contact_summary (lookup talker) talker =
      { username := talker, aliasName := "", ctype := -1, remark := "",
        nickname := talker, is_chatroom := strContains talker "@chatroom" } := by
  rw [h]; rfl

/-- Concrete instantiation of the C4 theorem, on a chatroom identifier. -/
theorem contact_fallback_witness :
    ((fun _ : String => (none : Option ContactRow)) "group@chatroom" = none)
    ∧ contact_summary
        ((fun _ : String => (none : Option ContactRow)) "group@chatroom")
        "group@chatroom" =
      { username := "group@chatroom", aliasName := "", ctype := -1, remark := "",
        nickname := "group@chatroom",
        is_chatroom := strContains "group@chatroom" "@chatroom" } :=
  ⟨rfl, contact_fallback (fun _ => none) "group@chatroom" rfl⟩

/-- Hex-or-`None` on a nonempty byte string: rendered as lowercase hex. -/
theorem pyHexOrNone_blob (bs : List Nat) (h : bs ≠ []) :
    pyHexOrNone (DBValue.blob bs) = some (bytesHex bs) := by
  simp [pyHexOrNone, DBValue.isTruthy, h]

/-- Hex-or-`None` on NULL: the output field stays absent. -/
theorem pyHexOrNone_null : pyHexOrNone DBValue.null = none := rfl

/-- Hex-or-`None` on an integer value: `int` has no `hex` attribute, the
`AttributeError` is caught and the field is absent. -/
theorem pyHexOrNone_int (n : Int) : pyHexOrNone (DBValue.int n) = none := by
  unfold pyHexOrNone
  split <;> rfl

/-- Hex-or-`None` on a text value: `str` has no `hex` attribute, the
`AttributeError` is caught and the field is absent. -/
theorem pyHexOrNone_text (s : String) : pyHexOrNone (DBValue.text s) = none := by
  unfold pyHexOrNone
  split <;> rfl

/-- C5: the formatter renders a present, nonempty binary payload as a
lowercase hexadecimal string whose decoding reproduces the original bytes;
an absent binary input (NULL, or a missing trailing column) yields an absent
output field, and a present value that is not a byte string also yields an
absent field instead of an error. -/
theorem format_binary_fields (m : MsgRow) :
    (∀ bs, m.bytesExtra = DBValue.blob bs → bs ≠ [] → (∀ b ∈ bs, b < 256) →
      (format_message_for_json m).bytes_extra = some (bytesHex bs)
      ∧ hexToBytes (bytesHex bs) = some bs)
    ∧ (m.bytesExtra = DBValue.null →
        (format_message_for_json m).bytes_extra = none)
    ∧ (∀ n, m.bytesExtra = DBValue.int n →
        (format_message_for_json m).bytes_extra = none)
    ∧ (∀ s, m.bytesExtra = DBValue.text s →
        (format_message_for_json m).bytes_extra = none)
    ∧ (m.compressContent = none →
        (format_message_for_json m).compress_content = none)
    ∧ (m.compressContent = some DBValue.null →
        (format_message_for_json m).compress_content = none)
    ∧ (∀ n, m.compressContent = some (DBValue.int n) →
        (format_message_for_json m).compress_content = none)
    ∧ (∀ s, m.compressContent = some (DBValue.text s) →
        (format_message_for_json m).compress_content = none)
    ∧ (∀ bs, m.compressContent = some (DBValue.blob bs) → bs ≠ [] →
        (∀ b ∈ bs, b < 256) →
      (format_message_for_json m).compress_content = some (bytesHex bs)
      ∧ hexToBytes (bytesHex bs) = some bs) := by
  have hbe : (format_message_for_json m).bytes_extra = pyHexOrNone m.bytesExtra := rfl
  refine ⟨?_, ?_, ?_, ?_, ?_, ?_, ?_, ?_, ?_⟩
  · intro bs hb hne hlt
    rw [hbe, hb, pyHexOrNone_blob bs hne]
    exact ⟨rfl, hexToBytes_bytesHex bs hlt⟩
  · intro hb; rw [hbe, hb, pyHexOrNone_null]
  · intro n hb; rw [hbe, hb, pyHexOrNone_int]
  · intro s hb; rw [hbe, hb, pyHexOrNone_text]
  · intro hc; simp [format_message_for_json, hc]
  · intro hc; simp [format_message_for_json, hc, pyHexOrNone_null]
  · intro n hc; simp [format_message_for_json, hc, pyHexOrNone_int]
  · intro s hc; simp [format_message_for_json, hc, pyHexOrNone_text]
  · intro bs hc hne hlt
    have : (format_message_for_json m).compress_content = pyHexOrNone (DBValue.blob bs) := by
      simp [format_message_for_json, hc]
    rw [this, pyHexOrNone_blob bs hne]
    exact ⟨rfl, hexToBytes_bytesHex bs hlt⟩

/-- Concrete row with both binary columns populated. -/
def demoBinRow : MsgRow :=
  { mkRow 5 "alice" with
      bytesExtra := DBValue.blob [0, 255],
      compressContent := some (DBValue.blob [16, 1]) }

/-- Concrete instantiation of the C5 theorem: both payloads round-trip. -/
theorem format_binary_fields_witness :
    (demoBinRow.bytesExtra = DBValue.blob [0, 255] ∧ ([0, 255] : List Nat) ≠ []
      ∧ (∀ b ∈ ([0, 255] : List Nat), b < 256))
    ∧ ((format_message_for_json demoBinRow).bytes_extra = some (bytesHex [0, 255])
      ∧ hexToBytes (bytesHex [0, 255]) = some [0, 255]) :=
  ⟨⟨rfl, by decide, by decide⟩,
    (format_binary_fields demoBinRow).1 [0, 255] rfl (by decide) (by decide)⟩

/-- A nonempty list is not `isEmpty`. -/
theorem isEmpty_false_of_ne_nil {α : Type} {l : List α} (h : l ≠ []) :
    l.isEmpty = false := by
  cases l with
  | nil => exact absurd rfl h
  | cons a l => rfl

/-- C6 counterexample: with the message-database file missing but the store
nonempty, the query returns `[]` and the export runs to exactly the same
outcome as an empty match — sentinel `""`, one "no records" diagnostic, no
file written — rather than surfacing a distinct fatal error. -/
theorem missing_db_absorbed_counterexample :
    get_all_messages demoEnv.parse false [mkRow 5 "alice"] none = []
    ∧ export_chat_records demoEnv false [mkRow 5 "alice"] true true [] none none =
        export_chat_records demoEnv true [] true true [] none none
    ∧ (export_chat_records demoEnv false [mkRow 5 "alice"] true true [] none none).returned = ""
    ∧ (export_chat_records demoEnv false [mkRow 5 "alice"] true true [] none none).written = none
    ∧ (export_chat_records demoEnv false [mkRow 5 "alice"] true true [] none none).noRecordsMsgs = 1 :=
  ⟨rfl, rfl, rfl, rfl, rfl⟩

/-- C6 (amended): when the message-database file is missing, the query logs
the error and returns the empty list, and the export is absorbed into the
empty-result outcome — no file written, the empty-path sentinel returned, the
"no records" diagnostic emitted — identical to the outcome on an actually
empty store, with no distinct fatal error. -/
theorem missing_db_empty_outcome (env : Env) (table : List MsgRow)
    (cdbExists hasLabelTable : Bool) (contactTable : List ContactRow)
    (tr : Option (PyTime × PyTime)) (out : Option String) :
    get_all_messages env.parse false table tr = []
    ∧ export_chat_records env false table cdbExists hasLabelTable contactTable tr out =
        { written := none, returned := "", noRecordsMsgs := 1, writeErrorMsgs := 0,
          writeAttempts := 0, madeExportsDir := false }
    ∧ export_chat_records env false table cdbExists hasLabelTable contactTable tr out =
        export_chat_records env true [] cdbExists hasLabelTable contactTable tr out := by
  refine ⟨rfl, rfl, ?_⟩
  have hempty : get_all_messages env.parse true [] tr = [] := by
    unfold get_all_messages
    cases tr <;> rfl
  simp only [export_chat_records, hempty]
  rfl

/-- C7: when the query yields no messages the export terminates without
writing a file, emits the "no records" diagnostic once, returns the
empty-path sentinel, and (being a total function of its inputs) lets no
exception escape. -/
theorem empty_result_no_write (env : Env) (msgDbExists : Bool)
    (table : List MsgRow) (cdbExists hasLabelTable : Bool)
    (contactTable : List ContactRow) (tr : Option (PyTime × PyTime))
    (out : Option String)
    (h : get_all_messages env.parse msgDbExists table tr = []) :
    export_chat_records env msgDbExists table cdbExists hasLabelTable contactTable tr out =
      { written := none, returned := "", noRecordsMsgs := 1, writeErrorMsgs := 0,
        writeAttempts := 0, madeExportsDir := false } := by
  simp only [export_chat_records, h]
  rfl

/-- Concrete instantiation of the C7 theorem, on an empty store. -/
theorem empty_result_no_write_witness :
    (get_all_messages demoEnv.parse true [] none = [])
    ∧ export_chat_records demoEnv true [] true true [] none none =
        { written := none, returned := "", noRecordsMsgs := 1, writeErrorMsgs := 0,
          writeAttempts := 0, madeExportsDir := false } :=
  ⟨rfl, empty_result_no_write demoEnv true [] true true [] none none rfl⟩

/-- Updating the group of the current talker keeps the key of an entry. -/
theorem addMsg_upd_fst (m : MsgRow) (p : String × List MsgRow) :
    (if p.1 = m.strTalker then (p.1, p.2 ++ [m]) else p).1 = p.1 := by
  split <;> rfl

/-- Keys after one grouping step: unchanged when the talker is already a key,
extended by the talker otherwise. -/
theorem addMsg_keys (acc : List (String × List MsgRow)) (m : MsgRow) :
    (addMsg acc m).map Prod.fst =
      if acc.any (fun p => p.1 == m.strTalker) then acc.map Prod.fst
      else acc.map Prod.fst ++ [m.strTalker] := by
  unfold addMsg
  split
  case isTrue h =>
    rw [List.map_map]
    exact List.map_congr_left fun p _ => addMsg_upd_fst m p
  case isFalse h => simp

/-- One grouping step preserves distinctness of the keys. -/
theorem addMsg_keys_nodup (acc : List (String × List MsgRow)) (m : MsgRow)
    (h : (acc.map Prod.fst).Nodup) : ((addMsg acc m).map Prod.fst).Nodup := by
  rw [addMsg_keys]
  split
  case isTrue _ => exact h
  case isFalse hany =>
    rw [List.nodup_append]
    refine ⟨h, List.nodup_singleton _, ?_⟩
    intro x hxk hxs
    rcases List.mem_map.mp hxk with ⟨p, hp, hfst⟩
    rcases List.mem_singleton.mp hxs with rfl
    exact hany (List.any_eq_true.mpr ⟨p, hp, by simp [hfst]⟩)

/-- Effect of one grouping step on one group: the message is appended to the
group of its own talker and every other group is unchanged. -/
theorem lookupGroup_addMsg (acc : List (String × List MsgRow)) (m : MsgRow)
    (t : String) :
    lookupGroup (addMsg acc m) t =
      lookupGroup acc t ++ if m.strTalker = t then [m] else [] := by
  unfold addMsg
  split
  case isTrue hany =>
    unfold lookupGroup
    rw [List.find?_map]
    have hpred : ((fun (p : String × List MsgRow) => p.1 == t) ∘
        fun (p : String × List MsgRow) =>
          if p.1 = m.strTalker then (p.1, p.2 ++ [m]) else p) =
        fun (p : String × List MsgRow) => p.1 == t := by
      funext p
      have hfst := addMsg_upd_fst m p
      simp [Function.comp, hfst]
    rw [hpred]
    rcases hf : List.find? (fun (p : String × List MsgRow) => p.1 == t) acc
      with _ | p
    · have hne : m.strTalker ≠ t := by
        intro hmt
        rcases List.any_eq_true.mp hany with ⟨q, hq, hqt⟩
        have hsome : (List.find?
            (fun (p : String × List MsgRow) => p.1 == t) acc).isSome := by
          rw [List.find?_isSome]
          exact ⟨q, hq, by simp_all⟩
        rw [hf] at hsome
        exact absurd hsome (by simp)
      simp [hf, hne]
    · have hp1 : p.1 = t := by simpa using List.find?_some hf
      by_cases hmt : m.strTalker = t
      · have hcond : p.1 = m.strTalker := by rw [hp1, hmt]
        simp [hf, hcond, hmt]
      · have hcond : ¬ p.1 = m.strTalker := by
          rw [hp1]; exact fun hh => hmt hh.symm
        simp [hf, hcond, hmt]
  case isFalse hany =>
    unfold lookupGroup
    rw [List.find?_append]
    by_cases hmt : m.strTalker = t
    · have hnone : List.find?
          (fun (p : String × List MsgRow) => p.1 == t) acc = none := by
        rw [List.find?_eq_none]
        intro q hq hqt
        exact hany (List.any_eq_true.mpr ⟨q, hq, by simp_all⟩)
      simp [hnone, hmt]
    · rcases hf : List.find? (fun (p : String × List MsgRow) => p.1 == t) acc
        with _ | p
      · simp [hf, hmt]
      · simp [hf, hmt]

/-- Invariant of the grouping fold: keys stay distinct and each group extends
by exactly the messages of its talker, in input order. -/
theorem foldl_addMsg_spec (msgs : List MsgRow) :
    ∀ acc : List (String × List MsgRow), (acc.map Prod.fst).Nodup →
      ((msgs.foldl addMsg acc).map Prod.fst).Nodup
      ∧ ∀ t, lookupGroup (msgs.foldl addMsg acc) t =
          lookupGroup acc t ++ msgs.filter (fun m => m.strTalker == t) := by
  induction msgs with
  | nil => exact fun acc h => ⟨h, fun t => by simp⟩
  | cons m ms ih =>
    intro acc h
    obtain ⟨hn, hl⟩ := ih (addMsg acc m) (addMsg_keys_nodup acc m h)
    constructor
    · simpa only [List.foldl_cons] using hn
    · intro t
      calc lookupGroup ((m :: ms).foldl addMsg acc) t
          = lookupGroup (ms.foldl addMsg (addMsg acc m)) t := by
            rw [List.foldl_cons]
        _ = lookupGroup (addMsg acc m) t
              ++ ms.filter (fun m => m.strTalker == t) := hl t
        _ = (lookupGroup acc t ++ if m.strTalker = t then [m] else [])
              ++ ms.filter (fun m => m.strTalker == t) := by
            rw [lookupGroup_addMsg]
        _ = lookupGroup acc t
              ++ (m :: ms).filter (fun m => m.strTalker == t) := by
            rw [List.append_assoc]
            congr 1
            by_cases hmt : m.strTalker = t
            · simp [List.filter_cons, hmt]
            · simp [List.filter_cons, hmt]

/-- Keys of the full grouping are distinct. -/
theorem group_messages_keys_nodup (msgs : List MsgRow) :
    ((group_messages msgs).map Prod.fst).Nodup :=
  (foldl_addMsg_spec msgs [] (by simp)).1

/-- Each group of the full grouping is the filter of the input by its key. -/
theorem lookupGroup_group_messages (msgs : List MsgRow) (t : String) :
    lookupGroup (group_messages msgs) t =
      msgs.filter (fun m => m.strTalker == t) := by
  have h := (foldl_addMsg_spec msgs [] (by simp)).2 t
  simpa [lookupGroup] using h

/-- In a grouping with distinct keys, membership determines the lookup. -/
theorem find?_eq_of_mem_nodup (g : List (String × List MsgRow)) (t : String)
    (l : List MsgRow) (hnd : (g.map Prod.fst).Nodup) (hmem : (t, l) ∈ g) :
    g.find? (fun p => p.1 == t) = some (t, l) := by
  induction g with
  | nil => cases hmem
  | cons p g ih =>
    have hnd' : (p.1 :: g.map Prod.fst).Nodup := by simpa using hnd
    obtain ⟨hnotin, hndg⟩ := List.nodup_cons.mp hnd'
    rcases List.mem_cons.mp hmem with heq | hmem2
    · subst heq
      simp [List.find?_cons]
    · have hp1 : (p.1 == t) = false := by
        rw [beq_eq_false_iff_ne]
        intro hpt
        exact hnotin (hpt ▸ List.mem_map.mpr ⟨(t, l), hmem2, rfl⟩)
      simp only [List.find?_cons, hp1]
      exact ih hndg hmem2

/-- A member of the grouping carries exactly the filtered input as its group. -/
theorem mem_group_messages_eq_filter (msgs : List MsgRow)
    (p : String × List MsgRow) (hp : p ∈ group_messages msgs) :
    p.2 = msgs.filter (fun m => m.strTalker == p.1) := by
  have hf := find?_eq_of_mem_nodup (group_messages msgs) p.1 p.2
    (group_messages_keys_nodup msgs) hp
  have hl := lookupGroup_group_messages msgs p.1
  simp only [lookupGroup, hf] at hl
  exact hl

/-- The flattened grouping is a permutation of the input. -/
theorem group_messages_flatten_perm (msgs : List MsgRow) :
    ((group_messages msgs).map Prod.snd).flatten.Perm msgs := by
  rw [List.perm_iff_count]
  intro x
  rw [List.count_flatten, List.map_map]
  have hsum : ∀ g : List (String × List MsgRow),
      (g.map Prod.fst).Nodup →
      (∀ p ∈ g, p.2 = msgs.filter (fun m => m.strTalker == p.1)) →
      (g.map (List.count x ∘ Prod.snd)).sum =
        if x.strTalker ∈ g.map Prod.fst then List.count x msgs else 0 := by
    intro g
    induction g with
    | nil => intro _ _; simp
    | cons p g ih =>
      intro hnd hfl
      have hnd' : (p.1 :: g.map Prod.fst).Nodup := by simpa using hnd
      obtain ⟨hnotin, hndg⟩ := List.nodup_cons.mp hnd'
      have hrec := ih hndg fun q hq => hfl q (List.mem_cons_of_mem p hq)
      have hcp : List.count x p.2 =
          if x.strTalker = p.1 then List.count x msgs else 0 := by
        rw [hfl p (List.mem_cons_self p g)]
        by_cases hx : x.strTalker = p.1
        · rw [if_pos hx, List.count_filter (by simp [hx])]
        · rw [if_neg hx, List.count_eq_zero]
          intro hmemf
          exact hx (by simpa using (List.mem_filter.mp hmemf).2)
      rw [List.map_cons, List.sum_cons]
      by_cases hx : x.strTalker = p.1
      · have hxin : x.strTalker ∉ g.map Prod.fst := by rw [hx]; exact hnotin
        rw [hrec, if_neg hxin]
        have hhead : (List.count x ∘ Prod.snd) p = List.count x msgs := by
          simp [Function.comp, hcp, hx]
        rw [hhead, if_pos (by simp [hx])]
        omega
      · rw [hrec]
        have hhead : (List.count x ∘ Prod.snd) p = 0 := by
          simp [Function.comp, hcp, hx]
        rw [hhead]
        by_cases hxg : x.strTalker ∈ g.map Prod.fst
        · rw [if_pos hxg, if_pos (by simp [hxg])]
          omega
        · rw [if_neg hxg, if_neg (by simp [hx, hxg])]
  have hkeys : x ∈ msgs → x.strTalker ∈ (group_messages msgs).map Prod.fst := by
    intro hx
    have hmemf : x ∈ msgs.filter (fun m => m.strTalker == x.strTalker) :=
      List.mem_filter.mpr ⟨hx, by simp⟩
    rw [← lookupGroup_group_messages msgs x.strTalker] at hmemf
    rcases hf : (group_messages msgs).find?
        (fun p => p.1 == x.strTalker) with _ | p
    · simp only [lookupGroup, hf] at hmemf
      exact absurd hmemf (List.not_mem_nil x)
    · have hpmem := List.mem_of_find?_eq_some hf
      have hp1 : p.1 = x.strTalker := by simpa using List.find?_some hf
      exact List.mem_map.mpr ⟨p, hpmem, hp1⟩
  rw [hsum (group_messages msgs) (group_messages_keys_nodup msgs)
      (fun p hp => mem_group_messages_eq_filter msgs p hp)]
  by_cases hx : x ∈ msgs
  · rw [if_pos (hkeys hx)]
  · have hz : List.count x msgs = 0 := List.count_eq_zero.mpr hx
    rw [hz]
    simp

/-- C2: grouping by conversation identifier partitions the input: the
flattened groups are a permutation of the input (no duplication or omission),
the keys are distinct, every group equals the input filtered by its key (so
each member has the key as its own talker and the relative order within a
group is the relative input order), and every message lands in the group of
its own talker. -/
theorem group_messages_partition (msgs : List MsgRow) :
    ((group_messages msgs).map Prod.snd).flatten.Perm msgs
    ∧ ((group_messages msgs).map Prod.fst).Nodup
    ∧ (∀ p ∈ group_messages msgs,
        p.2 = msgs.filter (fun m => m.strTalker == p.1))
    ∧ ∀ m ∈ msgs, m ∈ lookupGroup (group_messages msgs) m.strTalker :=
  ⟨group_messages_flatten_perm msgs, group_messages_keys_nodup msgs,
    fun p hp => mem_group_messages_eq_filter msgs p hp,
    fun m hm => by
      rw [lookupGroup_group_messages]
      exact List.mem_filter.mpr ⟨hm, by simp⟩⟩

/-- Concrete instantiation of the C2 theorem on a three-message store with
two talkers. -/
theorem group_messages_partition_witness :
    (("alice", [mkRow 1 "alice", mkRow 3 "alice"]) ∈
        group_messages [mkRow 1 "alice", mkRow 2 "bob", mkRow 3 "alice"])
    ∧ [mkRow 1 "alice", mkRow 3 "alice"] =
        List.filter (fun m => m.strTalker == "alice")
          [mkRow 1 "alice", mkRow 2 "bob", mkRow 3 "alice"] :=
  ⟨by decide,
    (group_messages_partition [mkRow 1 "alice", mkRow 2 "bob", mkRow 3 "alice"]).2.2.1
      ("alice", [mkRow 1 "alice", mkRow 3 "alice"]) (by decide)⟩

/-- Keys of the contacts section are exactly the grouped keys. -/
theorem build_export_doc_contacts_keys (env : Env)
    (lookup : String → Option ContactRow)
    (grouped : List (String × List MsgRow)) (tr : Option (PyTime × PyTime)) :
    (build_export_doc env lookup grouped tr).contacts.map Prod.fst =
      grouped.map Prod.fst := by
  simp only [build_export_doc, List.map_map]
  exact List.map_congr_left fun p _ => rfl

/-- Keys of the messages section are exactly the grouped keys. -/
theorem build_export_doc_messages_keys (env : Env)
    (lookup : String → Option ContactRow)
    (grouped : List (String × List MsgRow)) (tr : Option (PyTime × PyTime)) :
    (build_export_doc env lookup grouped tr).messages.map Prod.fst =
      grouped.map Prod.fst := by
  simp only [build_export_doc, List.map_map]
  exact List.map_congr_left fun p _ => rfl

/-- C3: in every assembled export document the key list of `contacts` equals
the key list of `messages` (both are the grouped talkers in insertion order,
each appearing exactly once), whatever the contact lookup resolves to —
the loop inserts a contact entry, resolved or synthesized, for every grouped
key and nothing else. -/
theorem export_doc_keys_aligned (env : Env)
    (lookup : String → Option ContactRow) (msgs : List MsgRow)
    (tr : Option (PyTime × PyTime)) :
    ((build_export_doc env lookup (group_messages msgs) tr).contacts.map Prod.fst =
      (build_export_doc env lookup (group_messages msgs) tr).messages.map Prod.fst)
    ∧ ((build_export_doc env lookup (group_messages msgs) tr).contacts.map Prod.fst).Nodup
    ∧ ((build_export_doc env lookup (group_messages msgs) tr).messages.map Prod.fst).Nodup := by
  rw [build_export_doc_contacts_keys, build_export_doc_messages_keys]
  exact ⟨rfl, group_messages_keys_nodup msgs, group_messages_keys_nodup msgs⟩

/-- Concrete environment whose write fails after two characters. -/
def demoFailEnv : Env := { demoEnv with writeOutcome := .failAfter 2 }

/-- The document assembled in the failing-write counterexample run. -/
def demoFailDoc : ExportDoc :=
  build_export_doc demoFailEnv (get_contact_info true true [])
    (group_messages (get_all_messages demoFailEnv.parse true [mkRow 5 "alice"] none))
    none

/-- C8 counterexample: on a write failing after two characters, the export
reports the failure and returns the empty sentinel, but the file on disk
holds the two-character prefix of the document — not empty, not deleted, and
not the full serialized document: a partial file in a readable state
remains. -/
theorem partial_write_counterexample :
    (export_chat_records demoFailEnv true [mkRow 5 "alice"] true true [] none none).returned = ""
    ∧ (export_chat_records demoFailEnv true [mkRow 5 "alice"] true true [] none none).writeErrorMsgs = 1
    ∧ (export_chat_records demoFailEnv true [mkRow 5 "alice"] true true [] none none).written =
        some ("/home/u/exports/wechat_records_all_to_all.json", "01")
    ∧ demoFailEnv.serialize demoFailDoc = "0123456789"
    ∧ ("01" : String) ≠ ""
    ∧ ("01" : String) ≠ "0123456789" :=
  ⟨rfl, rfl, rfl, rfl, by decide, by decide⟩

/-- C8 (amended): on any write failure the export reports the failure exactly
once, returns the empty-path sentinel without letting an exception escape,
and makes exactly one write attempt (no retry); however the write is not
atomic and incomplete output is not deleted — on a mid-write failure the
flushed prefix of the document remains on disk. -/
theorem write_failure_reported (env : Env) (table : List MsgRow)
    (cdbExists hasLabelTable : Bool) (contactTable : List ContactRow)
    (tr : Option (PyTime × PyTime)) (out : Option String)
    (hfail : env.writeOutcome ≠ WriteOutcome.ok)
    (hmsgs : get_all_messages env.parse true table tr ≠ []) :
    (export_chat_records env true table cdbExists hasLabelTable contactTable tr out).returned = ""
    ∧ (export_chat_records env true table cdbExists hasLabelTable contactTable tr out).writeErrorMsgs = 1
    ∧ (export_chat_records env true table cdbExists hasLabelTable contactTable tr out).writeAttempts = 1
    ∧ ∀ n, env.writeOutcome = WriteOutcome.failAfter n →
        (export_chat_records env true table cdbExists hasLabelTable contactTable tr out).written =
          some
            ((match out with
              | some p => if p = "" then default_output_path env tr else p
              | none => default_output_path env tr),
            (env.serialize (build_export_doc env
                (get_contact_info cdbExists hasLabelTable contactTable)
                (group_messages (get_all_messages env.parse true table tr))
                tr)).take n) := by
  have hempty := isEmpty_false_of_ne_nil hmsgs
  rcases hw : env.writeOutcome with _ | n | _
  · exact absurd hw hfail
  · refine ⟨?_, ?_, ?_, ?_⟩ <;>
      simp [export_chat_records, hempty, hw]
  · refine ⟨?_, ?_, ?_, ?_⟩ <;>
      simp [export_chat_records, hempty, hw]

/-- Concrete instantiation of the C8 amended theorem. -/
theorem write_failure_reported_witness :
    (demoFailEnv.writeOutcome ≠ WriteOutcome.ok
      ∧ get_all_messages demoFailEnv.parse true [mkRow 5 "alice"] none ≠ [])
    ∧ ((export_chat_records demoFailEnv true [mkRow 5 "alice"] true true [] none none).returned = ""
      ∧ (export_chat_records demoFailEnv true [mkRow 5 "alice"] true true [] none none).writeErrorMsgs = 1
      ∧ (export_chat_records demoFailEnv true [mkRow 5 "alice"] true true [] none none).writeAttempts = 1
      ∧ ∀ n, demoFailEnv.writeOutcome = WriteOutcome.failAfter n →
          (export_chat_records demoFailEnv true [mkRow 5 "alice"] true true [] none none).written =
            some
              ((match (none : Option String) with
                | some p => if p = "" then default_output_path demoFailEnv none else p
                | none => default_output_path demoFailEnv none),
              (demoFailEnv.serialize (build_export_doc demoFailEnv
                  (get_contact_info true true [])
                  (group_messages (get_all_messages demoFailEnv.parse true [mkRow 5 "alice"] none))
                  none)).take n)) :=
  ⟨⟨by decide, by decide⟩,
    write_failure_reported demoFailEnv [mkRow 5 "alice"] true true [] none none
      (by decide) (by decide)⟩

/-- C9: with the time-range argument omitted, the assembled document carries
the literal `"all"` in both `time_range` fields; with no output path given,
the derived default path is `<cwd>/exports/wechat_records_all_to_all.json`
(the literal `all` on both sides of `_to_`), and the `exports` directory is
created exactly when it does not already exist. -/
theorem omitted_range_all (env : Env) (lookup : String → Option ContactRow)
    (grouped : List (String × List MsgRow)) (table : List MsgRow)
    (cdbExists hasLabelTable : Bool) (contactTable : List ContactRow)
    (hmsgs : get_all_messages env.parse true table none ≠ []) :
    (build_export_doc env lookup grouped none).time_range_start = "all"
    ∧ (build_export_doc env lookup grouped none).time_range_end = "all"
    ∧ default_output_path env none =
        env.cwd ++ "/exports/wechat_records_all_to_all.json"
    ∧ (export_chat_records env true table cdbExists hasLabelTable contactTable
        none none).madeExportsDir = !env.exportsDirExists := by
  have hempty := isEmpty_false_of_ne_nil hmsgs
  refine ⟨rfl, rfl, ?_, ?_⟩
  · simp only [default_output_path, String.append_assoc]
    rfl
  · rcases hw : env.writeOutcome with _ | n | _ <;>
      simp [export_chat_records, hempty, hw]

/-- Concrete instantiation of the C9 theorem. -/
theorem omitted_range_all_witness :
    (get_all_messages demoEnv.parse true [mkRow 5 "alice"] none ≠ [])
    ∧ ((build_export_doc demoEnv (fun _ => none) [] none).time_range_start = "all"
      ∧ (build_export_doc demoEnv (fun _ => none) [] none).time_range_end = "all"
      ∧ default_output_path demoEnv none =
          demoEnv.cwd ++ "/exports/wechat_records_all_to_all.json"
      ∧ (export_chat_records demoEnv true [mkRow 5 "alice"] true true []
          none none).madeExportsDir = !demoEnv.exportsDirExists) :=
  ⟨by decide,
    omitted_range_all demoEnv (fun _ => none) [] [mkRow 5 "alice"] true true []
      (by decide)⟩
